import Mathlib

/- Shallow embedding of the payroll server's session reconstruction, daily and
   payroll aggregation, biweekly period resolution and time-entry problem
   detection (app/services/payroll_service.py,
   app/services/biweekly_report_service.py, app/services/admin_service.py).
   Timestamps are modelled as integer epoch seconds (the store hands the
   services ISO strings that `datetime.fromisoformat` turns into naive
   datetimes; arithmetic on them is arithmetic on seconds).  Python floats are
   modelled as exact rationals; `round(x, n)` is round-half-to-even at n
   decimal digits and `int(x)` truncates toward zero. -/

/-- Python `round` to an integer: round half to even (banker's rounding). -/
def pyRoundHalfEven (q : Rat) : Int :=
  if q - (⌊q⌋ : Rat) < 1/2 then ⌊q⌋
  else if 1/2 < q - (⌊q⌋ : Rat) then ⌊q⌋ + 1
  else if ⌊q⌋ % 2 = 0 then ⌊q⌋ else ⌊q⌋ + 1

/-- Python `round(x, 2)`. -/
def pyRound2 (q : Rat) : Rat := (pyRoundHalfEven (q * 100) : Rat) / 100

/-- Python `round(x, 1)`. -/
def pyRound1 (q : Rat) : Rat := (pyRoundHalfEven (q * 10) : Rat) / 10

/-- Python `int(x)` applied to a float: truncation toward zero. -/
def pyTrunc (q : Rat) : Int := if 0 ≤ q then ⌊q⌋ else -⌊-q⌋

/-- One row of the `time_entries` table as the services read it. -/
structure TimeEntry where
  entry_id : Nat
  employee_id : Nat
  clock_type : String
  timestamp : Int
  wifi_network : Option String
deriving DecidableEq

/-- The open `current_session` dict of `calculate_work_sessions` before an OUT
event arrives. -/
structure PendingSession where
  employee_id : Nat
  clock_in : Int
  wifi_network_in : Option String
deriving DecidableEq

/-- One `session` dict appended to `sessions` inside
`calculate_work_sessions`. -/
structure RawSession where
  employee_id : Nat
  clock_in : Int
  clock_out : Option Int
  wifi_network_in : Option String
  wifi_network_out : Option String
  is_complete : Bool
  duration_minutes : Option Int
  duration_hours : Option Rat
deriving DecidableEq

/-- Closing the open session on an OUT event (`calculate_work_sessions`,
lines 25-37): set `clock_out`, mark complete, compute the duration. -/
def closeSession (p : PendingSession) (e : TimeEntry) : RawSession :=
  let dur : Int := e.timestamp - p.clock_in
  { employee_id := p.employee_id
    clock_in := p.clock_in
    clock_out := some e.timestamp
    wifi_network_in := p.wifi_network_in
    wifi_network_out := e.wifi_network
    is_complete := true
    duration_minutes := some (pyTrunc ((dur : Rat) / 60))
    duration_hours := some (pyRound2 ((dur : Rat) / 3600)) }

/-- The trailing unmatched-IN session appended after the event loop
(`calculate_work_sessions`, lines 39-41). -/
def pendingRaw (p : PendingSession) : RawSession :=
  { employee_id := p.employee_id
    clock_in := p.clock_in
    clock_out := none
    wifi_network_in := p.wifi_network_in
    wifi_network_out := none
    is_complete := false
    duration_minutes := none
    duration_hours := none }

/-- The event loop of `calculate_work_sessions` (lines 14-37): an IN event
opens a fresh session (discarding any open one), an OUT event closes and
emits the open session if there is one, anything else is ignored.  Returns
the emitted sessions and the still-open `current_session`. -/
def sessionLoop : List TimeEntry → Option PendingSession → List RawSession × Option PendingSession
  | [], cur => ([], cur)
  | e :: rest, cur =>
    if e.clock_type = "IN" then
      sessionLoop rest (some { employee_id := e.employee_id, clock_in := e.timestamp,
                               wifi_network_in := e.wifi_network })
    else if e.clock_type = "OUT" then
      match cur with
      | some p =>
        let r := sessionLoop rest none
        (closeSession p e :: r.1, r.2)
      | none => sessionLoop rest cur
    else sessionLoop rest cur

/-- Gregorian leap year, as `calendar.isleap`. -/
def isLeapYear (y : Int) : Bool := y % 4 = 0 && (y % 100 ≠ 0 || y % 400 = 0)

/-- Length of a month, as `calendar.monthrange(year, month)[1]`. -/
def daysInMonth (y : Int) (m : Nat) : Nat :=
  if m = 2 then (if isLeapYear y then 29 else 28)
  else if m = 4 ∨ m = 6 ∨ m = 9 ∨ m = 11 then 30
  else 31

/-- Civil (proleptic Gregorian) date of an epoch day number. -/
def civilFromDays (z0 : Int) : Int × Nat × Nat :=
  let z := z0 + 719468
  let era := Int.fdiv z 146097
  let doe := (z - era * 146097).toNat
  let yoe := (doe - doe / 1460 + doe / 36524 - doe / 146096) / 365
  let doy := doe - (365 * yoe + yoe / 4 - yoe / 100)
  let mp := (5 * doy + 2) / 153
  let d := doy - (153 * mp + 2) / 5 + 1
  let m := if mp < 10 then mp + 3 else mp - 9
  (era * 400 + yoe + (if m ≤ 2 then 1 else 0), m, d)

/-- Left-pad a number with zeros to the given width. -/
def padNat (width n : Nat) : String :=
  let s := toString n
  String.mk (List.replicate (width - s.length) '0') ++ s

/-- `strftime('%Y-%m-%d')` of an epoch-second timestamp. -/
def fmtDate (t : Int) : String :=
  let c := civilFromDays (Int.fdiv t 86400)
  padNat 4 c.1.toNat ++ "-" ++ padNat 2 c.2.1 ++ "-" ++ padNat 2 c.2.2

/-- `strftime('%Y%m%d_%H%M%S')` of an epoch-second timestamp (session ids). -/
def fmtDateTimeId (t : Int) : String :=
  let c := civilFromDays (Int.fdiv t 86400)
  let s := (Int.emod t 86400).toNat
  padNat 4 c.1.toNat ++ padNat 2 c.2.1 ++ padNat 2 c.2.2 ++ "_" ++
    padNat 2 (s / 3600) ++ padNat 2 (s % 3600 / 60) ++ padNat 2 (s % 60)

/-- `app/models/payroll.py` `WorkSession` (floats as rationals, datetimes as
epoch seconds, the date as its `YYYY-MM-DD` string). -/
structure WorkSession where
  session_id : String
  employee_id : Nat
  employee_name : String
  clock_in : Int
  clock_out : Option Int
  duration_minutes : Option Int
  duration_hours : Option Rat
  is_complete : Bool
  wifi_network_in : Option String
  wifi_network_out : Option String
  date : String
deriving DecidableEq

/-- The dict-to-`WorkSession` conversion loop of `calculate_work_sessions`
(lines 44-58); `employee_name` is filled in later by the caller. -/
def toWorkSession (r : RawSession) : WorkSession :=
  { session_id := toString r.employee_id ++ "_" ++ fmtDateTimeId r.clock_in
    employee_id := r.employee_id
    employee_name := ""
    clock_in := r.clock_in
    clock_out := r.clock_out
    duration_minutes := r.duration_minutes
    duration_hours := r.duration_hours
    is_complete := r.is_complete
    wifi_network_in := r.wifi_network_in
    wifi_network_out := r.wifi_network_out
    date := fmtDate r.clock_in }

/-- `payroll_service.calculate_work_sessions`. -/
def calculate_work_sessions (time_entries : List TimeEntry) : List WorkSession :=
  let st := sessionLoop time_entries none
  let sessions := st.1 ++ (match st.2 with | some p => [pendingRaw p] | none => [])
  sessions.map toWorkSession

/-- `app/models/payroll.py` `DailySummary`. -/
structure DailySummary where
  employee_id : Nat
  employee_name : String
  date : String
  total_hours : Rat
  sessions : List WorkSession
  has_incomplete_session : Bool
  overtime_hours : Rat
  regular_hours : Rat
deriving DecidableEq

/-- Sum of `duration_hours or 0` over the complete sessions among those of
the given date (`calculate_daily_summary`, line 73). -/
def dayTotalHours (sessions : List WorkSession) (date : String) : Rat :=
  (((sessions.filter (fun s => s.date == date)).filter (fun s => s.is_complete)).map
    (fun s => s.duration_hours.getD 0)).sum

/-- The `DailySummary` built for a non-empty session list
(`calculate_daily_summary`, lines 67-89). -/
def mkDailySummary (first : WorkSession) (sessions : List WorkSession) (date : String) :
    DailySummary :=
  let date_sessions := sessions.filter (fun s => s.date == date)
  let total_hours := dayTotalHours sessions date
  let regular_hours := min total_hours 8
  let overtime_hours := max 0 (total_hours - 8)
  { employee_id := first.employee_id
    employee_name := first.employee_name
    date := date
    total_hours := pyRound2 total_hours
    sessions := date_sessions
    has_incomplete_session := date_sessions.any (fun s => !s.is_complete)
    overtime_hours := pyRound2 overtime_hours
    regular_hours := pyRound2 regular_hours }

/-- `payroll_service.calculate_daily_summary`; `none` models Python's
`None`, returned exactly when the input session list is empty. -/
def calculate_daily_summary (sessions : List WorkSession) (date : String) :
    Option DailySummary :=
  match sessions with
  | [] => none
  | first :: _ => some (mkDailySummary first sessions date)

/-- `app/models/payroll.py` `PayrollSummary`. -/
structure PayrollSummary where
  employee_id : Nat
  employee_name : String
  start_date : String
  end_date : String
  total_hours : Rat
  regular_hours : Rat
  overtime_hours : Rat
  total_days_worked : Nat
  sessions : List WorkSession
  daily_summaries : List DailySummary
deriving DecidableEq

/-- Code-point comparison of strings (the order Python's `sorted` uses on
`str`). -/
def charListLe : List Char → List Char → Bool
  | [], _ => true
  | _ :: _, [] => false
  | a :: as, b :: bs => if a < b then true else if b < a then false else charListLe as bs

/-- `sorted(set(s.date for s in sessions))` (`calculate_payroll_summary`,
line 100): the distinct dates in ascending code-point order. -/
def sortedUniqueDates (sessions : List WorkSession) : List String :=
  ((sessions.map (fun s => s.date)).dedup).insertionSort
    (fun a b => charListLe a.data b.data = true)

/-- `payroll_service.calculate_payroll_summary`; `none` models Python's
`None` for an empty session list. -/
def calculate_payroll_summary (sessions : List WorkSession) (start_date end_date : String) :
    Option PayrollSummary :=
  match sessions with
  | [] => none
  | first :: _ =>
    let daily_summaries := (sortedUniqueDates sessions).filterMap
      (fun date => calculate_daily_summary sessions date)
    let total_hours := (daily_summaries.map (fun d => d.total_hours)).sum
    let regular_hours := (daily_summaries.map (fun d => d.regular_hours)).sum
    let overtime_hours := (daily_summaries.map (fun d => d.overtime_hours)).sum
    some { employee_id := first.employee_id
           employee_name := first.employee_name
           start_date := start_date
           end_date := end_date
           total_hours := pyRound2 total_hours
           regular_hours := pyRound2 regular_hours
           overtime_hours := pyRound2 overtime_hours
           total_days_worked := daily_summaries.length
           sessions := sessions
           daily_summaries := daily_summaries }

/-- `calendar.month_name[1..12]`. -/
def monthNames : List String :=
  ["January", "February", "March", "April", "May", "June", "July",
   "August", "September", "October", "November", "December"]

/-- A `datetime` date triple as `BiweeklyPeriod` stores it. -/
structure PyDate where
  year : Int
  month : Nat
  day : Nat
deriving DecidableEq

/-- `biweekly_report_service.BiweeklyPeriod` (the attributes `__init__`
computes). -/
structure BiweeklyPeriod where
  year : Int
  month : Nat
  half : Nat
  month_name : String
  start_date : PyDate
  end_date : PyDate
deriving DecidableEq

/-- `BiweeklyPeriod.__init__` (lines 12-26): half 1 covers day 1-15, half 2
covers day 16 to the last day of the month. -/
def mkBiweeklyPeriod (year : Int) (month half : Nat) : BiweeklyPeriod :=
  { year := year
    month := month
    half := half
    month_name := (monthNames.get? (month - 1)).getD ""
    start_date := if half = 1 then ⟨year, month, 1⟩ else ⟨year, month, 16⟩
    end_date := if half = 1 then ⟨year, month, 15⟩
                else ⟨year, month, daysInMonth year month⟩ }

/-- Python `str.strip()`. -/
def stripChars (l : List Char) : List Char :=
  ((l.dropWhile Char.isWhitespace).reverse.dropWhile Char.isWhitespace).reverse

/-- The first-digit scan of `parse_period_string` (lines 66-70): the text
before the first digit and the text from it onward, or `none` when the label
holds no digit. -/
def splitAtFirstDigit : List Char → Option (List Char × List Char)
  | [] => none
  | c :: r =>
    if c.isDigit then some ([], c :: r)
    else match splitAtFirstDigit r with
      | none => none
      | some (pre, suf) => some (c :: pre, suf)

/-- Continuation of `pyIntOfChars`: digits with single underscores allowed
between digits, as Python's `int` grammar. -/
def pyIntDigits (acc : Nat) : List Char → Option Nat
  | [] => some acc
  | '_' :: c :: r => if c.isDigit then pyIntDigits (acc * 10 + (c.toNat - 48)) r else none
  | ['_'] => none
  | c :: r => if c.isDigit then pyIntDigits (acc * 10 + (c.toNat - 48)) r else none

/-- Python `int(s)` on the digit-leading half token of a period label. -/
def pyIntOfChars : List Char → Option Nat
  | [] => none
  | c :: r => if c.isDigit then pyIntDigits (c.toNat - 48) r else none

/-- 1-based index of a key in a list of names (the month dict lookups of
`parse_period_string`, lines 87-91). -/
def monthIndexFrom (key : List Char) : List (List Char) → Nat → Option Nat
  | [], _ => none
  | m :: rest, i => if key = m then some i else monthIndexFrom key rest (i + 1)

/-- The lowercase full month names. -/
def monthKeysFull : List (List Char) := monthNames.map (fun s => s.data.map Char.toLower)

/-- The lowercase three-letter month abbreviations. -/
def monthKeysAbbr : List (List Char) := monthKeysFull.map (fun l => l.take 3)

/-- `month_names.get(k) or month_abbr.get(k)` (line 91; the dict values are
1..12 and never falsy, so Python's `or` is `Option.orElse`). -/
def lookupMonth (key : List Char) : Option Nat :=
  (monthIndexFrom key monthKeysFull 1).orElse (fun _ => monthIndexFrom key monthKeysAbbr 1)

/-- `biweekly_report_service.parse_period_string`; `nowYear` stands for
`datetime.now().year`, used only when `year` is absent.  A `ValueError`
raised by the source is an `Except.error` here; the half check runs inside
the same `try` as `int(half_str)`, so both failures surface as the same
invalid-period-number error. -/
def parse_period_string (period : String) (year : Option Int) (nowYear : Int) :
    Except String BiweeklyPeriod :=
  let y := year.getD nowYear
  let p := stripChars period.data
  if p = [] then Except.error "Period string cannot be empty"
  else
    match splitAtFirstDigit p with
    | none => Except.error "No period number found"
    | some (pre, suf) =>
      match pyIntOfChars (stripChars suf) with
      | none => Except.error "Invalid period number"
      | some half =>
        if half = 1 ∨ half = 2 then
          match lookupMonth ((stripChars pre).map Char.toLower) with
          | none => Except.error "Invalid month name"
          | some month => Except.ok (mkBiweeklyPeriod y month half)
        else Except.error "Invalid period number"

/-- The failure condition of claim C6, stated from the spec's words: the
label is empty (after stripping), contains no digit, the part from the first
digit onward does not parse to the value 1 or 2, or the text before the
first digit matches no full or three-letter-abbreviated English month name
case-insensitively.  This definition follows the spec sentence, to be
compared with `parse_period_string`. -/
def specPeriodFails (period : String) : Bool :=
  let p := stripChars period.data
  p.isEmpty ||
    match splitAtFirstDigit p with
    | none => true
    | some (pre, suf) =>
      (!(pyIntOfChars (stripChars suf) == some 1 || pyIntOfChars (stripChars suf) == some 2)) ||
      (lookupMonth ((stripChars pre).map Char.toLower)).isNone

/-- Per-session payable hours (`calculate_biweekly_stats`, line 114):
subtract half an hour when the raw duration strictly exceeds five hours.
Python's truthiness tests (`s.duration_hours and ...`, `s.duration_hours or
0`) collapse to this: a missing duration contributes 0 and a zero duration
takes the else branch with value 0 either way. -/
def sessionLessBreak (s : WorkSession) : Rat :=
  match s.duration_hours with
  | none => 0
  | some d => if 5 < d then d - 1/2 else d

/-- The `total_hours` sum over complete sessions (`calculate_biweekly_stats`,
line 110). -/
def biweeklyTotalHours (sessions : List WorkSession) : Rat :=
  ((sessions.filter (fun s => s.is_complete)).map (fun s => s.duration_hours.getD 0)).sum

/-- The `less_break_hours` sum over complete sessions
(`calculate_biweekly_stats`, lines 113-116). -/
def lessBreakHours (sessions : List WorkSession) : Rat :=
  ((sessions.filter (fun s => s.is_complete)).map sessionLessBreak).sum

/-- Split a character list on a separator character. -/
def splitOnChar (sep : Char) : List Char → List (List Char)
  | [] => [[]]
  | c :: r =>
    if c = sep then [] :: splitOnChar sep r
    else match splitOnChar sep r with
      | [] => [[c]]
      | g :: gs => (c :: g) :: gs

/-- Value of a non-empty all-digit character group. -/
def natOfDigits (l : List Char) : Option Nat :=
  if !l.isEmpty && l.all Char.isDigit then
    some (l.foldl (fun a c => a * 10 + (c.toNat - 48)) 0)
  else none

/-- `datetime.strptime(s, '%Y-%m-%d')`: three dash-separated digit groups
forming a valid calendar date; `none` models the raised `ValueError`. -/
def parsePyDate (s : String) : Option PyDate :=
  match splitOnChar '-' s.data with
  | [ys, ms, ds] =>
    match natOfDigits ys, natOfDigits ms, natOfDigits ds with
    | some y, some m, some d =>
      if 1 ≤ m && m ≤ 12 && 1 ≤ d && d ≤ daysInMonth (y : Int) m then
        some ⟨(y : Int), m, d⟩
      else none
    | _, _, _ => none
  | _ => none

/-- Epoch day number of a civil date (inverse of `civilFromDays`). -/
def daysFromCivil (y : Int) (m d : Nat) : Int :=
  let y2 := if m ≤ 2 then y - 1 else y
  let era := Int.fdiv y2 400
  let yoe := (y2 - era * 400).toNat
  let mp := if 2 < m then m - 3 else m + 9
  let doy := (153 * mp + 2) / 5 + d - 1
  let doe := yoe * 365 + yoe / 4 - yoe / 100 + doy
  era * 146097 + (doe : Int) - 719468

/-- Python `date.weekday()`: Monday = 0 … Sunday = 6. -/
def pyWeekday (dt : PyDate) : Nat :=
  ((daysFromCivil dt.year dt.month dt.day + 3).emod 7).toNat

/-- The weekend test of `calculate_biweekly_stats` (lines 122-130): parse the
session's date and test for Saturday or Sunday; a date that fails to parse
is skipped (the `except` branch). -/
def isWeekendSession (s : WorkSession) : Bool :=
  match parsePyDate s.date with
  | some dt => 5 ≤ pyWeekday dt
  | none => false

/-- The dict returned by `calculate_biweekly_stats`; `wage_payout` is `none`
exactly when the key is absent, which happens on the empty-input branch. -/
structure BiweeklyStats where
  total_hours : Rat
  less_break_hours : Rat
  days_worked : Nat
  avg_hours_per_day : Rat
  break_time : Rat
  weekend_days : Nat
  wage_payout : Option Rat
deriving DecidableEq

/-- `biweekly_report_service.calculate_biweekly_stats`. -/
def calculate_biweekly_stats (sessions : List WorkSession) : BiweeklyStats :=
  match sessions with
  | [] =>
    { total_hours := 0, less_break_hours := 0, days_worked := 0,
      avg_hours_per_day := 0, break_time := 0, weekend_days := 0,
      wage_payout := none }
  | _ :: _ =>
    let total_hours := biweeklyTotalHours sessions
    let less_break_hours := lessBreakHours sessions
    let days_worked := (sessions.filter (fun s => s.is_complete)).length
    let avg_hours_per_day := if 0 < days_worked then less_break_hours / (days_worked : Rat) else 0
    let break_time := total_hours - less_break_hours
    let weekend_days := sessions.countP isWeekendSession
    let wage_payout := less_break_hours * 13
    { total_hours := pyRound2 total_hours
      less_break_hours := pyRound2 less_break_hours
      days_worked := days_worked
      avg_hours_per_day := pyRound1 avg_hours_per_day
      break_time := pyRound1 break_time
      weekend_days := weekend_days
      wage_payout := some wage_payout }

/-- `app/models/admin.py` `ProblemTimeEntry`. -/
structure ProblemTimeEntry where
  entry_id : Nat
  employee_id : Nat
  employee_name : String
  timestamp : Int
  clock_type : String
  problem_type : String
  problem_description : String
  suggested_action : String
deriving DecidableEq

/-- Python's `f'{x:.1f}'`: fixed-point formatting with one decimal digit. -/
def fmtFixed1 (q : Rat) : String :=
  let n := pyRoundHalfEven (q * 10)
  (if n < 0 then "-" else "") ++ toString (n.natAbs / 10) ++ "." ++ toString (n.natAbs % 10)

/-- `strftime('%I:%M %p')`: 12-hour clock rendering of an epoch-second
timestamp. -/
def fmtTime12 (t : Int) : String :=
  let s := (Int.emod t 86400).toNat
  let h := s / 3600
  padNat 2 ((h + 11) % 12 + 1) ++ ":" ++ padNat 2 (s % 3600 / 60) ++
    (if h < 12 then " AM" else " PM")

/-- Hour-of-day of an epoch-second timestamp (`datetime.hour`). -/
def hourOf (t : Int) : Nat := (Int.emod t 86400).toNat / 3600

/-- The DOUBLE_PUNCH problem record (`detect_time_entry_problems`,
lines 45-55). -/
def mkDoubleProblem (name : String) (p e : TimeEntry) : ProblemTimeEntry :=
  { entry_id := e.entry_id, employee_id := e.employee_id, employee_name := name,
    timestamp := e.timestamp, clock_type := e.clock_type,
    problem_type := "DOUBLE_PUNCH",
    problem_description := "Duplicate " ++ e.clock_type ++ " punch within " ++
      fmtFixed1 (((e.timestamp - p.timestamp : Int) : Rat) / 60) ++ " minutes",
    suggested_action := "Delete this entry or edit the time" }

/-- The LONG_SESSION problem record (`detect_time_entry_problems`,
lines 57-74). -/
def mkLongProblem (name : String) (p e : TimeEntry) : ProblemTimeEntry :=
  { entry_id := e.entry_id, employee_id := e.employee_id, employee_name := name,
    timestamp := e.timestamp, clock_type := e.clock_type,
    problem_type := "LONG_SESSION",
    problem_description := "Work session of " ++
      fmtFixed1 (((e.timestamp - p.timestamp : Int) : Rat) / 3600) ++ " hours",
    suggested_action := "Check if employee forgot to clock out/in" }

/-- The UNUSUAL_HOURS problem record (`detect_time_entry_problems`,
lines 76-88). -/
def mkUnusualProblem (name : String) (e : TimeEntry) : ProblemTimeEntry :=
  { entry_id := e.entry_id, employee_id := e.employee_id, employee_name := name,
    timestamp := e.timestamp, clock_type := e.clock_type,
    problem_type := "UNUSUAL_HOURS",
    problem_description := "Clock punch at " ++ fmtTime12 e.timestamp,
    suggested_action := "Verify this is correct or edit time" }

/-- The per-entry problems of the scan loop (`detect_time_entry_problems`,
lines 36-88), with `prev` the preceding entry when the index is positive:
a double punch (same kind within five minutes), a long session (IN directly
followed by OUT more than twelve hours later), and unusual hours (hour
before 4 or greater than 23). -/
def pairProblems (name : String) (p e : TimeEntry) : List ProblemTimeEntry :=
  (if e.clock_type == p.clock_type && ((e.timestamp - p.timestamp : Int) : Rat) / 60 < 5
   then [mkDoubleProblem name p e] else []) ++
  (if e.clock_type == "OUT" && p.clock_type == "IN" &&
      12 < ((e.timestamp - p.timestamp : Int) : Rat) / 3600
   then [mkLongProblem name p e] else [])

def entryProblems (name : String) (prev : Option TimeEntry) (e : TimeEntry) :
    List ProblemTimeEntry :=
  (match prev with
   | some p => pairProblems name p e
   | none => []) ++
  (if hourOf e.timestamp < 4 || 23 < hourOf e.timestamp
   then [mkUnusualProblem name e] else [])

/-- The indexed entry loop of `detect_time_entry_problems`. -/
def problemScan (name : String) : Option TimeEntry → List TimeEntry → List ProblemTimeEntry
  | _, [] => []
  | prev, e :: rest => entryProblems name prev e ++ problemScan name (some e) rest

/-- The end-of-scan boundary checks of `detect_time_entry_problems`
(lines 90-119): a first OUT on the range's start date and a last IN on the
range's end date; `entry['timestamp'].split('T')[0]` is the date part of
the ISO timestamp, i.e. `fmtDate`. -/
def boundaryProblems (name : String) (entries : List TimeEntry)
    (start_date end_date : String) : List ProblemTimeEntry :=
  match entries.head?, entries.getLast? with
  | some f, some l =>
    (if f.clock_type == "OUT" && fmtDate f.timestamp == start_date
     then [{ entry_id := f.entry_id, employee_id := f.employee_id, employee_name := name,
             timestamp := f.timestamp, clock_type := f.clock_type,
             problem_type := "MISSING_CLOCK_IN_START_OF_PERIOD",
             problem_description := "Period starts with clock OUT, suggesting a missing initial clock IN.",
             suggested_action := "Add missing clock IN entry before this" }] else []) ++
    (if l.clock_type == "IN" && fmtDate l.timestamp == end_date
     then [{ entry_id := l.entry_id, employee_id := l.employee_id, employee_name := name,
             timestamp := l.timestamp, clock_type := l.clock_type,
             problem_type := "MISSING_CLOCK_OUT_END_OF_PERIOD",
             problem_description := "Period ends with clock IN, suggesting a missing final clock OUT.",
             suggested_action := "Add missing clock OUT entry after this" }] else [])
  | _, _ => []

/-- `admin_service.detect_time_entry_problems` after the database reads: the
employee's name is resolved and the period's entries arrive ordered
ascending by timestamp. -/
def detect_time_entry_problems (employee_name : String) (entries : List TimeEntry)
    (start_date end_date : String) : List ProblemTimeEntry :=
  problemScan employee_name none entries ++
    boundaryProblems employee_name entries start_date end_date

/-- The event sequence strictly alternates IN, OUT, IN, OUT, … starting with
IN and has even length. -/
def altInOut : List TimeEntry → Bool
  | [] => true
  | [_] => false
  | a :: b :: rest => a.clock_type == "IN" && b.clock_type == "OUT" && altInOut rest

/-- Strictly ascending timestamps. -/
def ascendingTimestamps : List TimeEntry → Bool
  | [] => true
  | [_] => true
  | a :: b :: rest => a.timestamp < b.timestamp && ascendingTimestamps (b :: rest)

/-! Arithmetic facts about the Python rounding helpers. -/

theorem pyRoundHalfEven_intCast (n : Int) : pyRoundHalfEven (n : Rat) = n := by
  unfold pyRoundHalfEven
  rw [Int.floor_intCast]
  norm_num

theorem pyRoundHalfEven_add_even (q : Rat) (k : Int) (hk : k % 2 = 0) :
    pyRoundHalfEven (q + (k : Rat)) = pyRoundHalfEven q + k := by
  unfold pyRoundHalfEven
  rw [Int.floor_add_int]
  have h2 : q + (k : Rat) - ((⌊q⌋ + k : Int) : Rat) = q - (⌊q⌋ : Rat) := by
    push_cast
    ring
  rw [h2]
  split_ifs <;> omega

theorem pyRound2_intCast_div (k : Int) : pyRound2 ((k : Rat) / 100) = (k : Rat) / 100 := by
  unfold pyRound2
  rw [div_mul_cancel₀ _ (by norm_num : (100 : Rat) ≠ 0), pyRoundHalfEven_intCast]

theorem pyRound2_zero : pyRound2 0 = 0 := by
  have h := pyRound2_intCast_div 0
  norm_num at h
  exact h

/-- A rational that is a whole number of hundredths (every published
two-decimal figure is one). -/
def IsCenti (q : Rat) : Prop := ∃ k : Int, q = (k : Rat) / 100

theorem isCenti_pyRound2 (q : Rat) : IsCenti (pyRound2 q) :=
  ⟨pyRoundHalfEven (q * 100), rfl⟩

theorem IsCenti.round_eq {q : Rat} (h : IsCenti q) : pyRound2 q = q := by
  obtain ⟨k, rfl⟩ := h
  exact pyRound2_intCast_div k

theorem IsCenti.add {a b : Rat} (ha : IsCenti a) (hb : IsCenti b) : IsCenti (a + b) := by
  obtain ⟨j, rfl⟩ := ha
  obtain ⟨k, rfl⟩ := hb
  refine ⟨j + k, ?_⟩
  push_cast
  ring

theorem isCenti_zero : IsCenti 0 := ⟨0, by norm_num⟩

theorem isCenti_sum (l : List Rat) (h : ∀ x ∈ l, IsCenti x) : IsCenti l.sum := by
  induction l with
  | nil => simpa using isCenti_zero
  | cons a t ih =>
    rw [List.sum_cons]
    exact (h a (by simp)).add (ih fun x hx => h x (by simp [hx]))

/-- Rounding commutes with the regular/overtime split at the 8-hour
threshold: the two rounded parts add up to the rounded total exactly. -/
theorem round2_split (T : Rat) :
    pyRound2 (min T 8) + pyRound2 (max 0 (T - 8)) = pyRound2 T := by
  rcases le_or_lt T 8 with h | h
  · rw [min_eq_left h, max_eq_left (by linarith), pyRound2_zero, add_zero]
  · rw [min_eq_right h.le, max_eq_right (by linarith : (0 : Rat) ≤ T - 8)]
    have h8 : pyRound2 (8 : Rat) = 8 := by
      have := pyRound2_intCast_div 800
      norm_num at this
      exact this
    have hsub : pyRound2 (T - 8) = pyRound2 T - 8 := by
      unfold pyRound2
      have hmul : (T - 8) * 100 = T * 100 + ((-800 : Int) : Rat) := by
        push_cast
        ring
      rw [hmul, pyRoundHalfEven_add_even _ _ (by norm_num)]
      push_cast
      ring
    rw [h8, hsub]
    ring

/-- A complete work session with a given raw duration and calendar date, for
the concrete examples. -/
def exSession (d : Rat) (dt : String) : WorkSession :=
  { session_id := "", employee_id := 1, employee_name := "E", clock_in := 0,
    clock_out := some 0, duration_minutes := some 0, duration_hours := some d,
    is_complete := true, wifi_network_in := none, wifi_network_out := none,
    date := dt }

/-- An incomplete (still clocked-in) session on a given date, for the
concrete examples. -/
def exIncomplete (dt : String) : WorkSession :=
  { session_id := "", employee_id := 1, employee_name := "E", clock_in := 0,
    clock_out := none, duration_minutes := none, duration_hours := none,
    is_complete := false, wifi_network_in := none, wifi_network_out := none,
    date := dt }

/-- C2 counterexample: `calculate_daily_summary` checks only whether the whole
input list is empty, so a non-empty list with no session on the queried date
still yields a summary — the claim's "absent when no session in the list has
date D" fails here. -/
theorem claim_C2_counterexample :
    (∀ s ∈ [exSession 8 ("2025-06-01")], s.date ≠ "2025-06-02") ∧
    calculate_daily_summary [exSession 8 ("2025-06-01")] "2025-06-02" ≠ none := by
  constructor
  · decide
  · simp [calculate_daily_summary]

/-- C2 (amended): `calculate_daily_summary` returns `none` exactly when the
input session list is empty (not when no session matches the date); every
returned summary has `total = round2(day total)`,
`regular = round2(min(total, 8))`, `overtime = round2(max(0, total - 8))`,
and `regular + overtime = total` exactly, hence within ±0.01. -/
theorem claim_C2_daily_summary :
    ∀ (sessions : List WorkSession) (date : String),
      (calculate_daily_summary sessions date = none ↔ sessions = []) ∧
      ∀ d, calculate_daily_summary sessions date = some d →
        d.total_hours = pyRound2 (dayTotalHours sessions date) ∧
        d.regular_hours = pyRound2 (min (dayTotalHours sessions date) 8) ∧
        d.overtime_hours = pyRound2 (max 0 (dayTotalHours sessions date - 8)) ∧
        d.regular_hours + d.overtime_hours = d.total_hours ∧
        |d.regular_hours + d.overtime_hours - d.total_hours| ≤ 1/100 := by
  intro sessions date
  constructor
  · cases sessions <;> simp [calculate_daily_summary]
  · intro d hd
    cases sessions with
    | nil => simp [calculate_daily_summary] at hd
    | cons first rest =>
      simp only [calculate_daily_summary, Option.some.injEq] at hd
      subst hd
      have h4 : (mkDailySummary first (first :: rest) date).regular_hours +
          (mkDailySummary first (first :: rest) date).overtime_hours =
          (mkDailySummary first (first :: rest) date).total_hours := round2_split _
      exact ⟨rfl, rfl, rfl, h4, by rw [h4, sub_self, abs_zero]; norm_num⟩

/-- Witness for C2 at a concrete input: one 8.5-hour session on 2025-06-01. -/
theorem claim_C2_witness :
    calculate_daily_summary [exSession (17/2) ("2025-06-01")] "2025-06-01" =
      some (mkDailySummary (exSession (17/2) ("2025-06-01"))
        [exSession (17/2) ("2025-06-01")] "2025-06-01") ∧
    (mkDailySummary (exSession (17/2) ("2025-06-01"))
        [exSession (17/2) ("2025-06-01")] "2025-06-01").regular_hours +
      (mkDailySummary (exSession (17/2) ("2025-06-01"))
        [exSession (17/2) ("2025-06-01")] "2025-06-01").overtime_hours =
      (mkDailySummary (exSession (17/2) ("2025-06-01"))
        [exSession (17/2) ("2025-06-01")] "2025-06-01").total_hours :=
  ⟨rfl, ((claim_C2_daily_summary [exSession (17/2) ("2025-06-01")] "2025-06-01").2 _
      rfl).2.2.2.1⟩

/-- The three-session biweekly example of the spec: raw complete durations
6.0, 5.5 and 7.0 hours. -/
def biweeklyExample : List WorkSession :=
  [exSession 6 ("2025-07-01"), exSession (11/2) ("2025-07-02"), exSession 7 ("2025-07-03")]

theorem lessBreak_biweeklyExample : lessBreakHours biweeklyExample = 17 := by
  simp [lessBreakHours, biweeklyExample, exSession, sessionLessBreak]
  norm_num

/-- C3 counterexample: on raw durations [6.0, 5.5, 7.0] the code returns
`less_break_hours = 17.0`, not the claimed 17.5, because the 5.5-hour session
also loses the 0.5-hour break (5.5 > 5 holds strictly) and contributes 5.0
rather than 5.5. -/
theorem claim_C3_counterexample :
    (calculate_biweekly_stats biweeklyExample).less_break_hours = 17 ∧
    ((17 : Rat) ≠ 35/2) ∧
    sessionLessBreak (exSession (11/2) ("2025-07-02")) = 5 := by
  refine ⟨?_, by norm_num, ?_⟩
  · have h : (calculate_biweekly_stats biweeklyExample).less_break_hours =
        pyRound2 (lessBreakHours biweeklyExample) := rfl
    rw [h, lessBreak_biweeklyExample]
    have h17 := pyRound2_intCast_div 1700
    norm_num at h17
    exact h17
  · simp [sessionLessBreak, exSession]
    norm_num

/-- C3 (amended): for complete sessions of raw duration 6.0, 5.5 and 7.0
hours, `calculate_biweekly_stats` returns `less_break_hours = 17.0`, the
0.5-hour break being deducted from every complete session whose raw duration
strictly exceeds 5 hours — including the 5.5-hour one: the per-session
payable hours are [5.5, 5.0, 6.5]. -/
theorem claim_C3_less_break :
    (calculate_biweekly_stats biweeklyExample).less_break_hours = 17 ∧
    biweeklyExample.map sessionLessBreak = [11/2, 5, 13/2] := by
  constructor
  · have h : (calculate_biweekly_stats biweeklyExample).less_break_hours =
        pyRound2 (lessBreakHours biweeklyExample) := rfl
    rw [h, lessBreak_biweeklyExample]
    have h17 := pyRound2_intCast_div 1700
    norm_num at h17
    exact h17
  · simp [biweeklyExample, exSession, sessionLessBreak]
    norm_num

/-- C10: on empty input `calculate_biweekly_stats` returns the all-zero
statistics dict with no `wage_payout` key (modelled as `none`); on any
non-empty input `wage_payout` is present and equals the unrounded less-break
hour sum multiplied by the 13.0 hourly rate (so it can differ from the
published rounded `less_break_hours` times the rate). -/
theorem claim_C10_biweekly_stats :
    calculate_biweekly_stats [] =
      { total_hours := 0, less_break_hours := 0, days_worked := 0,
        avg_hours_per_day := 0, break_time := 0, weekend_days := 0,
        wage_payout := none } ∧
    ∀ sessions : List WorkSession, sessions ≠ [] →
      (calculate_biweekly_stats sessions).wage_payout =
        some (lessBreakHours sessions * 13) := by
  refine ⟨rfl, ?_⟩
  intro sessions h
  cases sessions with
  | nil => exact absurd rfl h
  | cons a t => rfl

/-- Witness for C10 at a concrete non-empty input. -/
theorem claim_C10_witness :
    ([exSession 8 ("2025-06-02")] : List WorkSession) ≠ [] ∧
    (calculate_biweekly_stats [exSession 8 ("2025-06-02")]).wage_payout =
      some (lessBreakHours [exSession 8 ("2025-06-02")] * 13) :=
  ⟨by simp, claim_C10_biweekly_stats.2 _ (by simp)⟩

/-! Facts about the session reconstruction loop. -/

theorem sessionLoop_cons (e : TimeEntry) (rest : List TimeEntry) (cur : Option PendingSession) :
    sessionLoop (e :: rest) cur =
      if e.clock_type = "IN" then
        sessionLoop rest (some { employee_id := e.employee_id, clock_in := e.timestamp,
                                 wifi_network_in := e.wifi_network })
      else if e.clock_type = "OUT" then
        match cur with
        | some p => (closeSession p e :: (sessionLoop rest none).1, (sessionLoop rest none).2)
        | none => sessionLoop rest cur
      else sessionLoop rest cur := rfl

/-- Every session emitted by the event loop is complete, and its duration
fields are computed from `clock_out - clock_in` by truncating division for
minutes and two-decimal rounding for hours. -/
theorem sessionLoop_fst_spec :
    ∀ (evs : List TimeEntry) (cur : Option PendingSession),
      ∀ r ∈ (sessionLoop evs cur).1,
        r.is_complete = true ∧
        ∃ co, r.clock_out = some co ∧
          r.duration_minutes = some (pyTrunc (((co - r.clock_in : Int) : Rat) / 60)) ∧
          r.duration_hours = some (pyRound2 (((co - r.clock_in : Int) : Rat) / 3600)) := by
  intro evs
  induction evs with
  | nil =>
    intro cur r hr
    simp [sessionLoop] at hr
  | cons e rest ih =>
    intro cur r hr
    rw [sessionLoop_cons] at hr
    by_cases hin : e.clock_type = "IN"
    · rw [if_pos hin] at hr
      exact ih _ r hr
    · rw [if_neg hin] at hr
      by_cases hout : e.clock_type = "OUT"
      · rw [if_pos hout] at hr
        cases cur with
        | none => exact ih _ r hr
        | some p =>
          dsimp only at hr
          rcases List.mem_cons.mp hr with h | h
          · subst h
            exact ⟨rfl, e.timestamp, rfl, rfl, rfl⟩
          · exact ih none r h
      · rw [if_neg hout] at hr
        exact ih _ r hr

/-- On a strictly alternating IN/OUT sequence the loop emits one session per
pair and ends with no session open. -/
theorem sessionLoop_alt (evs : List TimeEntry) :
    altInOut evs = true →
    (sessionLoop evs none).1.length = evs.length / 2 ∧ (sessionLoop evs none).2 = none := by
  induction evs using altInOut.induct with
  | case1 =>
    intro _
    simp [sessionLoop]
  | case2 a =>
    intro h
    simp [altInOut] at h
  | case3 a b rest ih =>
    intro h
    simp only [altInOut, Bool.and_eq_true, beq_iff_eq] at h
    obtain ⟨⟨ha, hb⟩, hrest⟩ := h
    obtain ⟨ih1, ih2⟩ := ih hrest
    have hb2 : b.clock_type ≠ "IN" := by rw [hb]; decide
    rw [sessionLoop_cons, if_pos ha, sessionLoop_cons, if_neg hb2, if_pos hb]
    dsimp only
    refine ⟨?_, ih2⟩
    rw [List.length_cons, ih1]
    simp only [List.length_cons]
    omega

/-- When the sequence ends with an IN event, the loop finishes with a session
still open. -/
theorem sessionLoop_snd_of_lastIn :
    ∀ (evs : List TimeEntry) (cur : Option PendingSession) (e : TimeEntry),
      evs.getLast? = some e → e.clock_type = "IN" →
      ∃ p, (sessionLoop evs cur).2 = some p := by
  intro evs
  induction evs with
  | nil =>
    intro cur e h _
    simp at h
  | cons a rest ih =>
    intro cur e hlast htype
    cases rest with
    | nil =>
      simp only [List.getLast?_singleton, Option.some.injEq] at hlast
      subst hlast
      rw [sessionLoop_cons, if_pos htype]
      exact ⟨_, rfl⟩
    | cons b rest2 =>
      have hlast2 : (b :: rest2).getLast? = some e := by
        rwa [List.getLast?_cons_cons] at hlast
      rw [sessionLoop_cons]
      by_cases hin : a.clock_type = "IN"
      · rw [if_pos hin]
        exact ih _ e hlast2 htype
      · rw [if_neg hin]
        by_cases hout : a.clock_type = "OUT"
        · rw [if_pos hout]
          cases cur with
          | some p =>
            dsimp only
            exact ih none e hlast2 htype
          | none => exact ih _ e hlast2 htype
        · rw [if_neg hout]
          exact ih _ e hlast2 htype

/-- C1: on an even-length strictly alternating IN, OUT, … sequence with
ascending timestamps, `calculate_work_sessions` returns exactly N/2 sessions,
all complete, and zero incomplete ones; and on any sequence ending with an
unmatched IN it returns exactly one incomplete session — last, with no
clock-out and no duration. -/
theorem claim_C1_session_reconstruction :
    (∀ evs : List TimeEntry, ascendingTimestamps evs = true → altInOut evs = true →
      (calculate_work_sessions evs).length = evs.length / 2 ∧
      (∀ s ∈ calculate_work_sessions evs, s.is_complete = true) ∧
      (calculate_work_sessions evs).countP (fun s => !s.is_complete) = 0) ∧
    (∀ (evs : List TimeEntry) (e : TimeEntry),
      evs.getLast? = some e → e.clock_type = "IN" →
      ∃ s, (calculate_work_sessions evs).getLast? = some s ∧
        s.is_complete = false ∧ s.clock_out = none ∧
        s.duration_minutes = none ∧ s.duration_hours = none ∧
        (calculate_work_sessions evs).countP (fun s => !s.is_complete) = 1) := by
  constructor
  · intro evs _ halt
    obtain ⟨h1, h2⟩ := sessionLoop_alt evs halt
    have hcalc : calculate_work_sessions evs = (sessionLoop evs none).1.map toWorkSession := by
      simp only [calculate_work_sessions, h2]
      simp
    refine ⟨?_, ?_, ?_⟩
    · rw [hcalc, List.length_map, h1]
    · intro s hs
      rw [hcalc] at hs
      obtain ⟨r, hr, rfl⟩ := List.mem_map.mp hs
      exact (sessionLoop_fst_spec evs none r hr).1
    · rw [List.countP_eq_zero]
      intro s hs
      rw [hcalc] at hs
      obtain ⟨r, hr, rfl⟩ := List.mem_map.mp hs
      have hc := (sessionLoop_fst_spec evs none r hr).1
      simp [toWorkSession, hc]
  · intro evs e hlast htype
    obtain ⟨p, hp⟩ := sessionLoop_snd_of_lastIn evs none e hlast htype
    have hcalc : calculate_work_sessions evs =
        (sessionLoop evs none).1.map toWorkSession ++ [toWorkSession (pendingRaw p)] := by
      simp only [calculate_work_sessions, hp]
      simp
    have hz : ((sessionLoop evs none).1.map toWorkSession).countP (fun s => !s.is_complete) = 0 := by
      rw [List.countP_eq_zero]
      intro s hs
      obtain ⟨r, hr, rfl⟩ := List.mem_map.mp hs
      have hc := (sessionLoop_fst_spec evs none r hr).1
      simp [toWorkSession, hc]
    refine ⟨toWorkSession (pendingRaw p), ?_, rfl, rfl, rfl, rfl, ?_⟩
    · rw [hcalc]
      exact List.getLast?_concat _
    · rw [hcalc, List.countP_append, hz]
      rfl

/-- A well-formed IN/OUT pair: 08:00 in, 16:30 out. -/
def c1pairExample : List TimeEntry :=
  [⟨1, 7, "IN", 28800, none⟩, ⟨2, 7, "OUT", 59400, none⟩]

/-- A lone unmatched IN. -/
def c1openExample : List TimeEntry := [⟨1, 7, "IN", 28800, none⟩]

/-- Witness for C1 on concrete inputs: the alternating pair yields one
complete session and the lone IN yields one trailing incomplete session. -/
theorem claim_C1_witness :
    (ascendingTimestamps c1pairExample = true ∧ altInOut c1pairExample = true ∧
      (calculate_work_sessions c1pairExample).length = c1pairExample.length / 2 ∧
      (calculate_work_sessions c1pairExample).countP (fun s => !s.is_complete) = 0) ∧
    (c1openExample.getLast? = some ⟨1, 7, "IN", 28800, none⟩ ∧
      ∃ s, (calculate_work_sessions c1openExample).getLast? = some s ∧
        s.is_complete = false ∧ s.clock_out = none ∧
        s.duration_minutes = none ∧ s.duration_hours = none ∧
        (calculate_work_sessions c1openExample).countP (fun s => !s.is_complete) = 1) := by
  refine ⟨⟨by decide, by decide, ?_, ?_⟩, by decide, ?_⟩
  · exact (claim_C1_session_reconstruction.1 c1pairExample (by decide) (by decide)).1
  · exact (claim_C1_session_reconstruction.1 c1pairExample (by decide) (by decide)).2.2
  · exact claim_C1_session_reconstruction.2 c1openExample ⟨1, 7, "IN", 28800, none⟩ (by decide) rfl

/-- Truncating division agrees with floor division on non-negative
dividends. -/
theorem pyTrunc_div60_eq_fdiv {t : Int} (h : 0 ≤ t) :
    pyTrunc ((t : Rat) / 60) = Int.fdiv t 60 := by
  unfold pyTrunc
  rw [if_pos (div_nonneg (by exact_mod_cast h) (by norm_num))]
  rw [show ((60 : Rat)) = ((60 : Nat) : Rat) by norm_num]
  rw [Rat.floor_intCast_div_natCast]
  rw [Int.fdiv_eq_ediv t (by norm_num)]
  norm_num

/-- An OUT recorded 90 seconds before its IN. -/
def c5entries : List TimeEntry :=
  [⟨1, 7, "IN", 90, none⟩, ⟨2, 7, "OUT", 0, none⟩]

/-- C5 counterexample: with an OUT 90 seconds before its IN, the code stores
`duration_minutes = -1` (Python `int()` truncates toward zero), while
`floor(total_seconds / 60) = floor(-1.5) = -2` — so `duration_minutes` is
not the claimed floor. -/
theorem claim_C5_counterexample :
    ∃ s ∈ calculate_work_sessions c5entries, s.is_complete = true ∧
      s.clock_in = 90 ∧ s.clock_out = some 0 ∧
      s.duration_minutes = some (-1) ∧
      Int.fdiv (0 - 90) 60 = -2 ∧
      s.duration_minutes ≠ some (Int.fdiv (0 - s.clock_in) 60) := by
  have hcalc : calculate_work_sessions c5entries =
      [toWorkSession (closeSession ⟨7, 90, none⟩ ⟨2, 7, "OUT", 0, none⟩)] := rfl
  have hm : (toWorkSession (closeSession ⟨7, 90, none⟩ ⟨2, 7, "OUT", 0, none⟩)).duration_minutes
      = some (-1) := by
    show some (pyTrunc (((0 - 90 : Int) : Rat) / 60)) = some (-1)
    norm_num [pyTrunc]
  refine ⟨toWorkSession (closeSession ⟨7, 90, none⟩ ⟨2, 7, "OUT", 0, none⟩),
    by rw [hcalc]; exact List.mem_singleton.mpr rfl, rfl, rfl, rfl, hm, by decide, ?_⟩
  rw [hm]
  intro hcontra
  simp only [Option.some.injEq] at hcontra
  revert hcontra
  decide

/-- C5 (amended): for every complete session produced by
`calculate_work_sessions`, `duration_minutes` is `total_seconds / 60`
truncated toward zero (Python `int()`), which agrees with
`floor(total_seconds / 60)` whenever the duration is non-negative, and
`duration_hours = round(total_seconds / 3600, 2)`; no clamping of negative
durations is performed. -/
theorem claim_C5_durations :
    ∀ (evs : List TimeEntry), ∀ s ∈ calculate_work_sessions evs, s.is_complete = true →
      ∃ co, s.clock_out = some co ∧
        s.duration_minutes = some (pyTrunc (((co - s.clock_in : Int) : Rat) / 60)) ∧
        s.duration_hours = some (pyRound2 (((co - s.clock_in : Int) : Rat) / 3600)) ∧
        (s.clock_in ≤ co → s.duration_minutes = some (Int.fdiv (co - s.clock_in) 60)) := by
  intro evs s hs hc
  simp only [calculate_work_sessions, List.mem_map, List.mem_append] at hs
  obtain ⟨r, hr, rfl⟩ := hs
  rcases hr with hr | hr
  · obtain ⟨_, co, hco, hmin, hhr⟩ := sessionLoop_fst_spec evs none r hr
    refine ⟨co, hco, hmin, hhr, ?_⟩
    intro hle
    have hle2 : r.clock_in ≤ co := hle
    show r.duration_minutes = some (Int.fdiv (co - r.clock_in) 60)
    rw [hmin]
    congr 1
    exact pyTrunc_div60_eq_fdiv (by omega)
  · rcases hsnd : (sessionLoop evs none).2 with _ | p
    · rw [hsnd] at hr
      simp at hr
    · rw [hsnd] at hr
      simp only [List.mem_singleton] at hr
      subst hr
      simp [toWorkSession, pendingRaw] at hc

/-- Witness for C5 on the 08:00-16:30 pair: the complete session's duration
fields follow the truncation/rounding formulas, and the floor form holds
since the duration is non-negative. -/
theorem claim_C5_witness :
    (toWorkSession (closeSession ⟨7, 28800, none⟩ ⟨2, 7, "OUT", 59400, none⟩)) ∈
      calculate_work_sessions c1pairExample ∧
    (toWorkSession (closeSession ⟨7, 28800, none⟩ ⟨2, 7, "OUT", 59400, none⟩)).is_complete = true ∧
    ∃ co, (toWorkSession (closeSession ⟨7, 28800, none⟩ ⟨2, 7, "OUT", 59400, none⟩)).clock_out = some co ∧
      (toWorkSession (closeSession ⟨7, 28800, none⟩ ⟨2, 7, "OUT", 59400, none⟩)).duration_minutes =
        some (pyTrunc (((co - (toWorkSession (closeSession ⟨7, 28800, none⟩ ⟨2, 7, "OUT", 59400, none⟩)).clock_in : Int) : Rat) / 60)) ∧
      (toWorkSession (closeSession ⟨7, 28800, none⟩ ⟨2, 7, "OUT", 59400, none⟩)).duration_hours =
        some (pyRound2 (((co - (toWorkSession (closeSession ⟨7, 28800, none⟩ ⟨2, 7, "OUT", 59400, none⟩)).clock_in : Int) : Rat) / 3600)) ∧
      ((toWorkSession (closeSession ⟨7, 28800, none⟩ ⟨2, 7, "OUT", 59400, none⟩)).clock_in ≤ co →
        (toWorkSession (closeSession ⟨7, 28800, none⟩ ⟨2, 7, "OUT", 59400, none⟩)).duration_minutes =
          some (Int.fdiv (co - (toWorkSession (closeSession ⟨7, 28800, none⟩ ⟨2, 7, "OUT", 59400, none⟩)).clock_in) 60)) := by
  have hmem : (toWorkSession (closeSession ⟨7, 28800, none⟩ ⟨2, 7, "OUT", 59400, none⟩)) ∈
      calculate_work_sessions c1pairExample := by
    have hcalc : calculate_work_sessions c1pairExample =
        [toWorkSession (closeSession ⟨7, 28800, none⟩ ⟨2, 7, "OUT", 59400, none⟩)] := rfl
    rw [hcalc]
    exact List.mem_singleton.mpr rfl
  exact ⟨hmem, rfl, claim_C5_durations c1pairExample _ hmem rfl⟩

/-! Facts about the payroll aggregation. -/

theorem sortedUniqueDates_length (sessions : List WorkSession) :
    (sortedUniqueDates sessions).length = ((sessions.map (fun s => s.date)).dedup).length :=
  List.length_insertionSort _ _

theorem mem_sortedUniqueDates {sessions : List WorkSession} {d : String} :
    d ∈ sortedUniqueDates sessions ↔ d ∈ ((sessions.map (fun s => s.date)).dedup) :=
  (List.perm_insertionSort _ _).mem_iff

/-- For a non-empty session list, `calculate_payroll_summary` returns the
record whose daily summaries are one `mkDailySummary` per sorted distinct
date, whose day count is their number, and whose totals are the rounded sums
of the per-day figures. -/
theorem payroll_summary_shape (first : WorkSession) (rest : List WorkSession) (sd ed : String) :
    ∃ ps, calculate_payroll_summary (first :: rest) sd ed = some ps ∧
      ps.daily_summaries = (sortedUniqueDates (first :: rest)).map
        (fun date => mkDailySummary first (first :: rest) date) ∧
      ps.total_days_worked = ps.daily_summaries.length ∧
      ps.total_hours = pyRound2 ((ps.daily_summaries.map (fun d => d.total_hours)).sum) ∧
      ps.regular_hours = pyRound2 ((ps.daily_summaries.map (fun d => d.regular_hours)).sum) ∧
      ps.overtime_hours = pyRound2 ((ps.daily_summaries.map (fun d => d.overtime_hours)).sum) := by
  refine ⟨_, rfl, ?_, rfl, rfl, rfl, rfl⟩
  show (sortedUniqueDates (first :: rest)).filterMap
      (fun date => calculate_daily_summary (first :: rest) date) = _
  have h : (fun date => calculate_daily_summary (first :: rest) date) =
      (some ∘ fun date => mkDailySummary first (first :: rest) date) := rfl
  rw [h, List.filterMap_eq_map]

/-- C8: for every non-empty session list, the payroll summary has one daily
summary per distinct date appearing among the sessions (not per calendar
date of the range), `total_days_worked` equal to that count, and totals that
are the rounded sums of the already-rounded per-day figures — which here
equal the plain sums exactly, so the invariant "totals equal the sum of the
contained daily summaries" holds. -/
theorem claim_C8_payroll_summary :
    ∀ (sessions : List WorkSession) (sd ed : String), sessions ≠ [] →
      ∃ ps, calculate_payroll_summary sessions sd ed = some ps ∧
        ps.daily_summaries.length = ((sessions.map (fun s => s.date)).dedup).length ∧
        ps.total_days_worked = ((sessions.map (fun s => s.date)).dedup).length ∧
        (∀ D, D ∈ ps.daily_summaries.map (fun d => d.date) ↔
          D ∈ sessions.map (fun s => s.date)) ∧
        ps.total_hours = pyRound2 ((ps.daily_summaries.map (fun d => d.total_hours)).sum) ∧
        ps.total_hours = (ps.daily_summaries.map (fun d => d.total_hours)).sum ∧
        ps.regular_hours = pyRound2 ((ps.daily_summaries.map (fun d => d.regular_hours)).sum) ∧
        ps.regular_hours = (ps.daily_summaries.map (fun d => d.regular_hours)).sum ∧
        ps.overtime_hours = pyRound2 ((ps.daily_summaries.map (fun d => d.overtime_hours)).sum) ∧
        ps.overtime_hours = (ps.daily_summaries.map (fun d => d.overtime_hours)).sum := by
  intro sessions sd ed hne
  cases sessions with
  | nil => exact absurd rfl hne
  | cons first rest =>
    obtain ⟨ps, hps, hdaily, hdays, ht, hr, ho⟩ := payroll_summary_shape first rest sd ed
    have hlen : ps.daily_summaries.length =
        (((first :: rest).map (fun s => s.date)).dedup).length := by
      rw [hdaily, List.length_map, sortedUniqueDates_length]
    have hdatemap : ps.daily_summaries.map (fun d => d.date) =
        sortedUniqueDates (first :: rest) := by
      rw [hdaily, List.map_map]
      have hcomp : ((fun d : DailySummary => d.date) ∘
          (fun date => mkDailySummary first (first :: rest) date)) = id := rfl
      rw [hcomp, List.map_id]
    have hcenti : ∀ (f : DailySummary → Rat),
        (∀ first2 sess date, IsCenti (f (mkDailySummary first2 sess date))) →
        IsCenti ((ps.daily_summaries.map f).sum) := by
      intro f hf
      apply isCenti_sum
      intro x hx
      rw [hdaily] at hx
      obtain ⟨d0, hd0, rfl⟩ := List.mem_map.mp hx
      obtain ⟨date, _, rfl⟩ := List.mem_map.mp hd0
      exact hf first (first :: rest) date
    have hTc := hcenti (fun d => d.total_hours) (fun a b c => isCenti_pyRound2 _)
    have hRc := hcenti (fun d => d.regular_hours) (fun a b c => isCenti_pyRound2 _)
    have hOc := hcenti (fun d => d.overtime_hours) (fun a b c => isCenti_pyRound2 _)
    refine ⟨ps, hps, hlen, by rw [hdays, hlen], ?_, ht, ?_, hr, ?_, ho, ?_⟩
    · intro D
      rw [hdatemap, mem_sortedUniqueDates, List.mem_dedup]
    · rw [ht]
      exact hTc.round_eq
    · rw [hr]
      exact hRc.round_eq
    · rw [ho]
      exact hOc.round_eq

/-- Witness for C8 at a concrete input: two sessions across two dates. -/
theorem claim_C8_witness :
    ([exSession 8 ("2025-06-01"), exSession 2 ("2025-06-02")] : List WorkSession) ≠ [] ∧
    ∃ ps, calculate_payroll_summary [exSession 8 ("2025-06-01"), exSession 2 ("2025-06-02")]
        "2025-06-01" "2025-06-15" = some ps ∧
      ps.daily_summaries.length =
        (([exSession 8 ("2025-06-01"), exSession 2 ("2025-06-02")].map (fun s => s.date)).dedup).length ∧
      ps.total_days_worked =
        (([exSession 8 ("2025-06-01"), exSession 2 ("2025-06-02")].map (fun s => s.date)).dedup).length ∧
      (∀ D, D ∈ ps.daily_summaries.map (fun d => d.date) ↔
        D ∈ [exSession 8 ("2025-06-01"), exSession 2 ("2025-06-02")].map (fun s => s.date)) ∧
      ps.total_hours = pyRound2 ((ps.daily_summaries.map (fun d => d.total_hours)).sum) ∧
      ps.total_hours = (ps.daily_summaries.map (fun d => d.total_hours)).sum ∧
      ps.regular_hours = pyRound2 ((ps.daily_summaries.map (fun d => d.regular_hours)).sum) ∧
      ps.regular_hours = (ps.daily_summaries.map (fun d => d.regular_hours)).sum ∧
      ps.overtime_hours = pyRound2 ((ps.daily_summaries.map (fun d => d.overtime_hours)).sum) ∧
      ps.overtime_hours = (ps.daily_summaries.map (fun d => d.overtime_hours)).sum :=
  ⟨by simp, claim_C8_payroll_summary _ "2025-06-01" "2025-06-15" (by simp)⟩

theorem dayTotal_zero_of_all_incomplete (sessions : List WorkSession) (D : String)
    (h : ∀ s ∈ sessions, s.date = D → s.is_complete = false) :
    dayTotalHours sessions D = 0 := by
  unfold dayTotalHours
  have hfil : (sessions.filter (fun s => s.date == D)).filter (fun s => s.is_complete) = [] := by
    rw [List.filter_eq_nil_iff]
    intro s hs
    have hmem := List.mem_filter.mp hs
    have hdate : s.date = D := by simpa using hmem.2
    simp [h s hmem.1 hdate]
  rw [hfil]
  simp

/-- C9: a date all of whose sessions are incomplete still yields a daily
summary with zero total, regular and overtime hours and the incomplete flag
set, and that date still counts as a day worked in the payroll summary. -/
theorem claim_C9_incomplete_day :
    ∀ (sessions : List WorkSession) (D sd ed : String),
      sessions ≠ [] →
      (∀ s ∈ sessions, s.date = D → s.is_complete = false) →
      (∃ s ∈ sessions, s.date = D) →
      (∃ d, calculate_daily_summary sessions D = some d ∧
        d.total_hours = 0 ∧ d.regular_hours = 0 ∧ d.overtime_hours = 0 ∧
        d.has_incomplete_session = true) ∧
      (∃ ps, calculate_payroll_summary sessions sd ed = some ps ∧
        ps.total_days_worked = ((sessions.map (fun s => s.date)).dedup).length ∧
        D ∈ ((sessions.map (fun s => s.date)).dedup) ∧
        ∃ d ∈ ps.daily_summaries, d.date = D ∧ d.total_hours = 0) := by
  intro sessions D sd ed hne hinc hex
  have hT : dayTotalHours sessions D = 0 := dayTotal_zero_of_all_incomplete sessions D hinc
  cases sessions with
  | nil => exact absurd rfl hne
  | cons first rest =>
    have hdaily0 : (mkDailySummary first (first :: rest) D).total_hours = 0 := by
      show pyRound2 (dayTotalHours (first :: rest) D) = 0
      rw [hT, pyRound2_zero]
    have hreg0 : (mkDailySummary first (first :: rest) D).regular_hours = 0 := by
      show pyRound2 (min (dayTotalHours (first :: rest) D) 8) = 0
      rw [hT, min_eq_left (by norm_num : (0 : Rat) ≤ 8), pyRound2_zero]
    have hot0 : (mkDailySummary first (first :: rest) D).overtime_hours = 0 := by
      show pyRound2 (max 0 (dayTotalHours (first :: rest) D - 8)) = 0
      rw [hT, max_eq_left (by norm_num : (0 : Rat) - 8 ≤ 0), pyRound2_zero]
    have hincflag : (mkDailySummary first (first :: rest) D).has_incomplete_session = true := by
      show ((first :: rest).filter (fun s => s.date == D)).any (fun s => !s.is_complete) = true
      obtain ⟨s, hsmem, hsdate⟩ := hex
      rw [List.any_eq_true]
      refine ⟨s, List.mem_filter.mpr ⟨hsmem, by simp [hsdate]⟩, ?_⟩
      simp [hinc s hsmem hsdate]
    refine ⟨⟨mkDailySummary first (first :: rest) D, rfl, hdaily0, hreg0, hot0, hincflag⟩, ?_⟩
    obtain ⟨ps, hps, hdaily, hdays, _, _, _⟩ := payroll_summary_shape first rest sd ed
    have hD : D ∈ (((first :: rest).map (fun s => s.date)).dedup) := by
      rw [List.mem_dedup, List.mem_map]
      obtain ⟨s, hsmem, hsdate⟩ := hex
      exact ⟨s, hsmem, hsdate⟩
    refine ⟨ps, hps, ?_, hD, ?_⟩
    · rw [hdays, hdaily, List.length_map, sortedUniqueDates_length]
    · rw [hdaily]
      refine ⟨mkDailySummary first (first :: rest) D,
        List.mem_map.mpr ⟨D, mem_sortedUniqueDates.mpr hD, rfl⟩, rfl, hdaily0⟩

/-- Witness for C9 at a concrete input: a single incomplete session on
2025-06-03. -/
theorem claim_C9_witness :
    ([exIncomplete ("2025-06-03")] : List WorkSession) ≠ [] ∧
    (∀ s ∈ ([exIncomplete ("2025-06-03")] : List WorkSession),
      s.date = "2025-06-03" → s.is_complete = false) ∧
    (∃ s ∈ ([exIncomplete ("2025-06-03")] : List WorkSession), s.date = "2025-06-03") ∧
    ((∃ d, calculate_daily_summary [exIncomplete ("2025-06-03")] "2025-06-03" = some d ∧
        d.total_hours = 0 ∧ d.regular_hours = 0 ∧ d.overtime_hours = 0 ∧
        d.has_incomplete_session = true) ∧
      (∃ ps, calculate_payroll_summary [exIncomplete ("2025-06-03")] "2025-06-01" "2025-06-15" =
          some ps ∧
        ps.total_days_worked =
          (([exIncomplete ("2025-06-03")].map (fun s => s.date)).dedup).length ∧
        "2025-06-03" ∈ (([exIncomplete ("2025-06-03")].map (fun s => s.date)).dedup) ∧
        ∃ d ∈ ps.daily_summaries, d.date = "2025-06-03" ∧ d.total_hours = 0)) :=
  ⟨by simp, by decide, by decide,
    claim_C9_incomplete_day _ "2025-06-03" "2025-06-01" "2025-06-15" (by simp) (by decide)
      (by decide)⟩

/-! Facts about the biweekly period resolver. -/

/-- Any successful `parse_period_string` result is a `BiweeklyPeriod` built
with a half equal to 1 or 2. -/
theorem parse_ok_shape {period : String} {year : Option Int} {nowYear : Int}
    {bp : BiweeklyPeriod} (h : parse_period_string period year nowYear = Except.ok bp) :
    ∃ (y : Int) (m half : Nat), (half = 1 ∨ half = 2) ∧ bp = mkBiweeklyPeriod y m half := by
  simp only [parse_period_string] at h
  split at h
  · simp at h
  · split at h
    · simp at h
    · split at h
      · simp at h
      · rename_i half heq
        split at h
        · rename_i h12
          split at h
          · simp at h
          · exact ⟨_, _, _, h12, (Except.ok.inj h).symm⟩
        · simp at h

/-- The date range a `BiweeklyPeriod` carries for each half. -/
theorem mkBiweeklyPeriod_range (y : Int) (m half : Nat) (h : half = 1 ∨ half = 2) :
    (half = 1 ∧ (mkBiweeklyPeriod y m half).start_date = ⟨y, m, 1⟩ ∧
      (mkBiweeklyPeriod y m half).end_date = ⟨y, m, 15⟩) ∨
    (half = 2 ∧ (mkBiweeklyPeriod y m half).start_date = ⟨y, m, 16⟩ ∧
      (mkBiweeklyPeriod y m half).end_date = ⟨y, m, daysInMonth y m⟩) := by
  rcases h with rfl | rfl
  · left
    exact ⟨rfl, by simp [mkBiweeklyPeriod], by simp [mkBiweeklyPeriod]⟩
  · right
    refine ⟨rfl, ?_, ?_⟩ <;> simp [mkBiweeklyPeriod]

/-- C4: every successfully resolved period maps half 1 to day 1-15 and half 2
to day 16 through the month's last calendar day, respecting month length and
leap years; in particular July2/2025 is 07-16 to 07-31, Mar1/2025 is 03-01
to 03-15, and February half 2 ends on the 29th in 2024 but the 28th in
2025. -/
theorem claim_C4_period_ranges :
    (∀ (period : String) (year : Option Int) (nowYear : Int) (bp : BiweeklyPeriod),
      parse_period_string period year nowYear = Except.ok bp →
      (bp.half = 1 ∧ bp.start_date = ⟨bp.year, bp.month, 1⟩ ∧
        bp.end_date = ⟨bp.year, bp.month, 15⟩) ∨
      (bp.half = 2 ∧ bp.start_date = ⟨bp.year, bp.month, 16⟩ ∧
        bp.end_date = ⟨bp.year, bp.month, daysInMonth bp.year bp.month⟩)) ∧
    parse_period_string "July2" (some 2025) 2025 = Except.ok (mkBiweeklyPeriod 2025 7 2) ∧
    (mkBiweeklyPeriod 2025 7 2).start_date = ⟨2025, 7, 16⟩ ∧
    (mkBiweeklyPeriod 2025 7 2).end_date = ⟨2025, 7, 31⟩ ∧
    parse_period_string "Mar1" (some 2025) 2025 = Except.ok (mkBiweeklyPeriod 2025 3 1) ∧
    (mkBiweeklyPeriod 2025 3 1).start_date = ⟨2025, 3, 1⟩ ∧
    (mkBiweeklyPeriod 2025 3 1).end_date = ⟨2025, 3, 15⟩ ∧
    parse_period_string "February2" (some 2024) 2024 = Except.ok (mkBiweeklyPeriod 2024 2 2) ∧
    (mkBiweeklyPeriod 2024 2 2).end_date = ⟨2024, 2, 29⟩ ∧
    parse_period_string "February2" (some 2025) 2025 = Except.ok (mkBiweeklyPeriod 2025 2 2) ∧
    (mkBiweeklyPeriod 2025 2 2).end_date = ⟨2025, 2, 28⟩ := by
  refine ⟨?_, rfl, by decide, by decide, rfl, by decide, by decide, rfl,
    by decide, rfl, by decide⟩
  intro period year nowYear bp h
  obtain ⟨y, m, half, h12, rfl⟩ := parse_ok_shape h
  have hr := mkBiweeklyPeriod_range y m half h12
  simpa [mkBiweeklyPeriod] using hr

/-- Witness for C4: the theorem applied at the period label July2 of 2025. -/
theorem claim_C4_witness :
    parse_period_string "July2" (some 2025) 2025 = Except.ok (mkBiweeklyPeriod 2025 7 2) ∧
    (((mkBiweeklyPeriod 2025 7 2).half = 1 ∧
      (mkBiweeklyPeriod 2025 7 2).start_date =
        ⟨(mkBiweeklyPeriod 2025 7 2).year, (mkBiweeklyPeriod 2025 7 2).month, 1⟩ ∧
      (mkBiweeklyPeriod 2025 7 2).end_date =
        ⟨(mkBiweeklyPeriod 2025 7 2).year, (mkBiweeklyPeriod 2025 7 2).month, 15⟩) ∨
    ((mkBiweeklyPeriod 2025 7 2).half = 2 ∧
      (mkBiweeklyPeriod 2025 7 2).start_date =
        ⟨(mkBiweeklyPeriod 2025 7 2).year, (mkBiweeklyPeriod 2025 7 2).month, 16⟩ ∧
      (mkBiweeklyPeriod 2025 7 2).end_date =
        ⟨(mkBiweeklyPeriod 2025 7 2).year, (mkBiweeklyPeriod 2025 7 2).month,
          daysInMonth (mkBiweeklyPeriod 2025 7 2).year (mkBiweeklyPeriod 2025 7 2).month⟩)) :=
  ⟨rfl, claim_C4_period_ranges.1 "July2" (some 2025) 2025 _ rfl⟩

/-- C6: `parse_period_string` fails exactly under the spec's four conditions
— empty label, no digit, half token not parsing to 1 or 2, unknown month
token — and in particular Foo3 and July are rejected. -/
theorem claim_C6_parse_failure :
    (∀ (period : String) (year : Option Int) (nowYear : Int),
      ((parse_period_string period year nowYear).isOk = false ↔
        specPeriodFails period = true)) ∧
    (parse_period_string "Foo3" none 2025).isOk = false ∧
    (parse_period_string "July" none 2025).isOk = false := by
  refine ⟨?_, by decide, by decide⟩
  intro period year nowYear
  simp only [parse_period_string, specPeriodFails]
  by_cases hemp : stripChars period.data = []
  · simp [hemp, Except.isOk, Except.toBool]
  · rw [if_neg hemp]
    have hemp2 : (stripChars period.data).isEmpty = false := by
      rcases h : stripChars period.data with _ | ⟨c, cs⟩
      · exact absurd h hemp
      · rfl
    rw [hemp2, Bool.false_or]
    rcases hsplit : splitAtFirstDigit (stripChars period.data) with _ | ⟨pre, suf⟩
    · simp [hsplit, Except.isOk, Except.toBool]
    · simp only [hsplit]
      rcases hint : pyIntOfChars (stripChars suf) with _ | half
      · simp [hint, Except.isOk, Except.toBool]
      · simp only [hint]
        by_cases h12 : half = 1 ∨ half = 2
        · rw [if_pos h12]
          have hbeq : ((some half == some 1) || (some half == some 2)) = true := by
            rcases h12 with rfl | rfl <;> decide
          rw [hbeq, Bool.not_true, Bool.false_or]
          rcases hm : lookupMonth ((stripChars pre).map Char.toLower) with _ | month
          · simp [hm, Except.isOk, Except.toBool]
          · simp [hm, Except.isOk, Except.toBool]
        · rw [if_neg h12]
          have hbeq : ((some half == some 1) || (some half == some 2)) = false := by
            push_neg at h12
            simp [h12.1, h12.2]
          rw [hbeq, Bool.not_false, Bool.true_or]
          simp [Except.isOk, Except.toBool]

/-! Facts about the problem detector. -/

theorem hourOf_lt_24 (t : Int) : hourOf t < 24 := by
  unfold hourOf
  have h1 : 0 ≤ Int.emod t 86400 := Int.emod_nonneg t (by norm_num)
  have h2 : Int.emod t 86400 < 86400 := Int.emod_lt_of_pos t (by norm_num)
  omega

theorem pairProblems_unusual_filter (name : String) (p e : TimeEntry) :
    (pairProblems name p e).filter (fun q => q.problem_type == "UNUSUAL_HOURS") = [] := by
  unfold pairProblems
  rw [List.filter_append]
  split_ifs <;> simp [mkDoubleProblem, mkLongProblem]

theorem entryProblems_unusual_filter (name : String) (prev : Option TimeEntry) (e : TimeEntry) :
    (entryProblems name prev e).filter (fun q => q.problem_type == "UNUSUAL_HOURS") =
      if hourOf e.timestamp < 4 then [mkUnusualProblem name e] else [] := by
  unfold entryProblems
  rw [List.filter_append]
  have h1 : ((match prev with
      | some p => pairProblems name p e
      | none => ([] : List ProblemTimeEntry)) : List ProblemTimeEntry).filter
        (fun q => q.problem_type == "UNUSUAL_HOURS") = [] := by
    cases prev with
    | none => rfl
    | some p => exact pairProblems_unusual_filter name p e
  rw [h1, List.nil_append]
  by_cases h : hourOf e.timestamp < 4
  · simp [h, mkUnusualProblem]
  · have h23 : ¬ (23 < hourOf e.timestamp) := by
      have := hourOf_lt_24 e.timestamp
      omega
    simp [h, h23]

theorem problemScan_unusual_filter (name : String) :
    ∀ (prev : Option TimeEntry) (entries : List TimeEntry),
      (problemScan name prev entries).filter (fun q => q.problem_type == "UNUSUAL_HOURS") =
        (entries.filter (fun e => hourOf e.timestamp < 4)).map (mkUnusualProblem name) := by
  intro prev entries
  induction entries generalizing prev with
  | nil => rfl
  | cons e rest ih =>
    have hcons : problemScan name prev (e :: rest) =
        entryProblems name prev e ++ problemScan name (some e) rest := rfl
    rw [hcons, List.filter_append, entryProblems_unusual_filter, ih, List.filter_cons]
    by_cases h : hourOf e.timestamp < 4
    · simp [h]
    · simp [h]

theorem boundaryProblems_unusual_filter (name : String) (entries : List TimeEntry)
    (sd ed : String) :
    (boundaryProblems name entries sd ed).filter
      (fun q => q.problem_type == "UNUSUAL_HOURS") = [] := by
  unfold boundaryProblems
  rcases entries.head? with _ | f
  · rfl
  · rcases entries.getLast? with _ | l
    · rfl
    · rw [List.filter_append]
      split_ifs <;> simp

/-- C7 counterexample: a punch at 23:30 (hour 23) satisfies the claim's
"hour ≥ 23" predicate, yet the code's strict `hour > 23` test never fires on
a valid hour, so no UNUSUAL_HOURS problem is produced for it. -/
theorem claim_C7_counterexample :
    hourOf (84600 : Int) = 23 ∧
    (([(⟨1, 7, "IN", 84600, none⟩ : TimeEntry)]).countP
      (fun e => hourOf e.timestamp < 4 ∨ 23 ≤ hourOf e.timestamp)) = 1 ∧
    (detect_time_entry_problems "E" [⟨1, 7, "IN", 84600, none⟩] "1970-01-01" "1970-01-02").countP
      (fun q => q.problem_type == "UNUSUAL_HOURS") = 0 := by
  refine ⟨by decide, by decide, by decide⟩

/-- C7 (amended): an UNUSUAL_HOURS problem is produced for an event exactly
when its hour-of-day is before 04:00 — the `hour > 23` disjunct of the code
never fires since the hour is always at most 23, so an event at 23:30 is not
flagged; the flagged problems are precisely one record per matching event. -/
theorem claim_C7_unusual_hours :
    ∀ (name : String) (entries : List TimeEntry) (sd ed : String),
      (detect_time_entry_problems name entries sd ed).filter
          (fun q => q.problem_type == "UNUSUAL_HOURS") =
        (entries.filter (fun e => hourOf e.timestamp < 4)).map (mkUnusualProblem name) ∧
      (detect_time_entry_problems name entries sd ed).countP
          (fun q => q.problem_type == "UNUSUAL_HOURS") =
        entries.countP (fun e => hourOf e.timestamp < 4) := by
  intro name entries sd ed
  have hf : (detect_time_entry_problems name entries sd ed).filter
      (fun q => q.problem_type == "UNUSUAL_HOURS") =
      (entries.filter (fun e => hourOf e.timestamp < 4)).map (mkUnusualProblem name) := by
    unfold detect_time_entry_problems
    rw [List.filter_append, problemScan_unusual_filter, boundaryProblems_unusual_filter,
      List.append_nil]
  refine ⟨hf, ?_⟩
  rw [List.countP_eq_length_filter, hf, List.length_map, List.countP_eq_length_filter]
